import Mathlib

/-
Verification of the tab_pal palette editor (src/tab_pal/tab_pal.py) against its
specification.

The preferences file is an XML document manipulated through
xml.etree.ElementTree.  We embed element trees as the inductive type `Node`
below.  An element carries its tag, its attribute list (attribute dictionaries
have unique keys, so an association list is faithful), its text (the optional
string before the first child; `None` in Python is `none` here) and its ordered
children.  Comment nodes can occur in the on-disk document; the default
ElementTree parser used by the program discards them, which the load model
`load_document` reflects.  All trees held by the running app are parsed trees,
so the state-machine operations below work on `Node` values directly: every
mutating operation of the source re-parses the file, mutates the tree and
rewrites the whole file, which at tree level is exactly a pure function from
the old tree to the new tree.

The Textual widget layer is abstracted to the data it contributes to the
operations: the prompt of the highlighted entry of the palette list
(`highlightedPalette`), the prompt of the highlighted entry of the colour list
(`highlightedColour`), and the contents of the colour list pane
(`colourList`).  A Python exception that escapes an event handler crashes the
session; operations that can raise are embedded with `Except PyErr`.
-/

inductive Node where
  | elem (tag : String) (attrs : List (String × String)) (text : Option String)
      (children : List Node)
  | comment (s : String)
deriving Repr

/-- Tag test, as used by ElementTree tag paths such as `preferences` or
`.//color-palette`.  Comment nodes never match a tag. -/
def Node.tagIs (t : String) : Node → Bool
  | .elem tag _ _ _ => tag == t
  | .comment _ => false

/-- The `.text` field of an element (ElementTree stores a comment body in the
text field of the comment node). -/
def Node.text : Node → Option String
  | .elem _ _ tx _ => tx
  | .comment s => some s

/-- The ordered children of an element; iterating an Element in Python yields
exactly this list. -/
def Node.childNodes : Node → List Node
  | .elem _ _ _ cs => cs
  | .comment _ => []

/-- Model of `element.attrib.get(k)` and of the `[@name="..."]` predicate. -/
def Node.getAttr (k : String) : Node → Option String
  | .elem _ attrs _ _ => (attrs.find? (fun p => p.1 == k)).map Prod.snd
  | .comment _ => none

mutual

/-- All proper descendants of a node in document (preorder) order, the
sequence that `findall(".//tag")` filters. -/
def Node.descendants : Node → List Node
  | .elem _ _ _ cs => descList cs
  | .comment _ => []

/-- Preorder listing of a forest: each root followed by its descendants. -/
def descList : List Node → List Node
  | [] => []
  | c :: cs => c :: (Node.descendants c ++ descList cs)

end

mutual

/-- First proper descendant of a node satisfying `p`, in document order:
`element.find(".//...")`. -/
def findNodeDesc (p : Node → Bool) : Node → Option Node
  | .elem _ _ _ cs => findNodeList p cs
  | .comment _ => none

/-- First node of a forest, or of a descendant of one of its members,
satisfying `p`, in document order. -/
def findNodeList (p : Node → Bool) : List Node → Option Node
  | [] => none
  | c :: cs =>
      if p c then some c
      else
        match findNodeDesc p c with
        | some n => some n
        | none => findNodeList p cs

end

mutual

/-- Rewrite the first proper descendant of a node satisfying `p` (in document
order) with `f`; `none` when there is no such descendant.  This is the pure
rendering of `element.find(".//...")` followed by an in-place mutation of the
found element. -/
def updateFirstDesc (p : Node → Bool) (f : Node → Node) : Node → Option Node
  | .elem t a tx cs => (updateFirstInList p f cs).map (Node.elem t a tx)
  | .comment _ => none

/-- Forest version of `updateFirstDesc`. -/
def updateFirstInList (p : Node → Bool) (f : Node → Node) : List Node → Option (List Node)
  | [] => none
  | c :: cs =>
      if p c then some (f c :: cs)
      else
        match updateFirstDesc p f c with
        | some c' => some (c' :: cs)
        | none => (updateFirstInList p f cs).map (c :: ·)

end

/-- Model of `parent.remove(child)` where `child` was obtained by
`parent.find(".//" ...)`: the find returns the first matching occurrence in
document order, and `remove` (which compares by object identity) succeeds only
when that occurrence is a direct child of `parent`.  `none` covers both
failure modes that raise `ValueError`: no occurrence at all (`remove(None)`)
and a first occurrence nested strictly below a direct child. -/
def removeDirectFirstMatch (p : Node → Bool) : List Node → Option (List Node)
  | [] => none
  | c :: cs =>
      if p c then some cs
      else
        match findNodeDesc p c with
        | some _ => none
        | none => (removeDirectFirstMatch p cs).map (c :: ·)

/-- Removal of the first child whose text equals `hc`, the effect of
`colour = [c for c in palette if c.text == hc][0]; palette.remove(colour)`
(list indexing picks the first match, `remove` deletes that occurrence). -/
def removeFirstWithText (hc : String) : List Node → List Node
  | [] => []
  | c :: cs => if c.text == some hc then cs else c :: removeFirstWithText hc cs

/-- Apply `removeFirstWithText` to the children of an element. -/
def removeColourFromPalette (hc : String) : Node → Node
  | .elem t a tx cs => .elem t a tx (removeFirstWithText hc cs)
  | .comment s => .comment s

/-- Append a child, `parent.append(element)`. -/
def appendChild (child : Node) : Node → Node
  | .elem t a tx cs => .elem t a tx (cs ++ [child])
  | .comment s => .comment s

/-- Replace the children of an element. -/
def Node.withChildren (cs : List Node) : Node → Node
  | .elem t a tx _ => .elem t a tx cs
  | .comment s => .comment s

/-- Apply `f` to the first direct child with tag `t`, the in-place mutation of
the element returned by `root.find(t)`. -/
def replaceFirstChildTagged (t : String) (f : Node → Node) : List Node → List Node
  | [] => []
  | c :: cs => if Node.tagIs t c then f c :: cs else c :: replaceFirstChildTagged t f cs

mutual

/-- Drop comment nodes everywhere in a tree: the behaviour of the default
`xml.etree.ElementTree` parser, whose tree builder discards comments and
processing instructions. -/
def stripComments : Node → Node
  | .elem t a tx cs => .elem t a tx (stripList cs)
  | .comment s => .comment s

/-- Forest version of `stripComments`. -/
def stripList : List Node → List Node
  | [] => []
  | Node.comment _ :: cs => stripList cs
  | c :: cs => stripComments c :: stripList cs

end

mutual

/-- A tree without comment nodes. -/
def Node.commentFree : Node → Bool
  | .elem _ _ _ cs => commentFreeList cs
  | .comment _ => false

/-- Forest version of `Node.commentFree`. -/
def commentFreeList : List Node → Bool
  | [] => true
  | c :: cs => c.commentFree && commentFreeList cs

end

/-- Model of `ET.parse` on the preferences file: the element tree built from
the document, with comments discarded (tab_pal.py lines 128-129, 235, 257-258,
342-343 all parse with the default parser). -/
def load_document (d : Node) : Node := stripComments d

/-- Model of `tree.write(path, encoding="utf-8", xml_declaration=True)` at
tree level: the in-memory tree is serialised in full, so the persisted
document is exactly the tree.  The serialiser always emits its own
`xml version 1.0, encoding utf-8` declaration line regardless of what the
original file declared. -/
def persist_document (d : Node) : Node := d

/-- `HEX_VALIDATION_REGEX = "^(#)?(?:[0-9a-fA-F]{6}){1}$"` (tab_pal.py line
32): hexadecimal digit in any case. -/
def isHexDigitChar (c : Char) : Bool :=
  ('0' ≤ c && c ≤ '9') || ('a' ≤ c && c ≤ 'f') || ('A' ≤ c && c ≤ 'F')

/-- `fullmatch(HEX_VALIDATION_REGEX, s)`: an optional leading `#` followed by
exactly six hexadecimal digits (stated over the character list of `s`). -/
def matchesHexRegex (s : String) : Bool :=
  let chars := s.toList
  let core := if chars.head? == some '#' then chars.tail else chars
  core.length == 6 && core.all isHexDigitChar

/-- The prepending step of `process_input` (tab_pal.py lines 424-425): a `#`
is prefixed whenever the submitted text is shorter than seven characters. -/
def canonicalInput (value : String) : String :=
  if value.length < 7 then "#" ++ value else value

/-- The label-to-code mapping of `AddPalette.add_new_palette` (tab_pal.py
lines 119-125). -/
def labelToTypeCode (palette_type : String) : String :=
  if palette_type == "Categorical" then "regular"
  else if palette_type == "Sequential" then "ordered-sequential"
  else if palette_type == "Diverging" then "ordered-diverging"
  else palette_type

/-- One entry of the palette cache, the dictionary built by
`get_existing_palettes`: attribute lookups can miss and a `color` element can
have empty text, hence the options. -/
structure Palette where
  name : Option String
  type : Option String
  colours : List (Option String)
deriving Repr, DecidableEq

/-- The dictionary built for one `color-palette` element (tab_pal.py lines
245-251): `name` and `type` attributes plus the text of each direct `color`
child, in order. -/
def paletteOfElement (palette : Node) : Palette :=
  { name := Node.getAttr "name" palette
    type := Node.getAttr "type" palette
    colours := (palette.childNodes.filter (Node.tagIs "color")).map Node.text }

/-- The palette dictionaries of the `color-palette` elements of a forest, in
document order. -/
def palettesOf (nodes : List Node) : List Palette :=
  (nodes.filter (Node.tagIs "color-palette")).map paletteOfElement

/-- `TabPal.get_existing_palettes` (tab_pal.py lines 229-252): re-parse the
preferences file and project every `color-palette` element found by
`tree.findall(".//color-palette")` — at any depth below the root — into a
dictionary. -/
def get_existing_palettes (root : Node) : List Palette :=
  palettesOf (descList root.childNodes)

/-- The predicate of the path `.//color-palette[@name="n"]`. -/
def palNamed (n : String) (x : Node) : Bool :=
  Node.tagIs "color-palette" x && (Node.getAttr "name" x == some n)

/-- The in-memory state of the running app that the embedded operations read
and write: the persisted document (as a parsed tree), the palette cache
`self.existing_palettes`, the highlight of the palette list, the highlight of
the colour list, and the contents of the colour list pane. -/
structure AppState where
  file : Node
  existing_palettes : List Palette
  highlightedPalette : Option String
  highlightedColour : Option String
  colourList : List (Option String)
deriving Repr

/-- Python exceptions that can escape the embedded operations. -/
inductive PyErr where
  | typeError
  | indexError
  | attributeError
  | valueError
deriving Repr, DecidableEq

/-- The element `ET.Element("color")` with `element.text = hex_code`
(tab_pal.py lines 260-261). -/
def colorElement (hex_code : String) : Node :=
  Node.elem "color" [] (some hex_code) []

/-- `TabPal.add_new_colour` (tab_pal.py lines 254-264): parse the file, find
the first `.//color-palette[@name=palette_name]` below the root, append a
`color` child carrying the hex text, and rewrite the file.  `none` is the
`AttributeError` raised by `parent_tag.append` when the find returns `None`. -/
def add_new_colour (file : Node) (palette_name hex_code : String) : Option Node :=
  updateFirstDesc (palNamed palette_name) (appendChild (colorElement hex_code)) file

/-- `TabPal.process_input` (tab_pal.py lines 405-437), the handler of a
submission in the hex-code input box.  The whole body runs under
`except TypeError: pass`, so a missing palette highlight is a silent no-op;
the `[...][0]` lookups raise `IndexError`, which is not caught. -/
def process_input (s : AppState) (input_value : String) : Except PyErr AppState :=
  match s.highlightedPalette with
  | none => .ok s
  | some highlighted_colour_palette =>
    match (s.existing_palettes.filter
        (fun p => p.name == some highlighted_colour_palette)).head? with
    | none => .error .indexError
    | some pal =>
      let palette_colours := pal.colours
      let hex_code := canonicalInput input_value
      if matchesHexRegex hex_code && !(palette_colours.contains (some hex_code)) then
        match add_new_colour s.file highlighted_colour_palette hex_code with
        | none => .error .attributeError
        | some file' =>
          let cache' := get_existing_palettes file'
          match (cache'.filter
              (fun p => p.name == some highlighted_colour_palette)).head? with
          | none => .error .indexError
          | some pal' =>
            .ok { s with
                  file := file'
                  existing_palettes := cache'
                  highlightedColour := none
                  colourList := pal'.colours }
      else .ok s

/-- The element `ET.Element("color-palette", {"name": n, "type": t})`
(tab_pal.py lines 131-133). -/
def newPaletteElement (palette_name palette_type : String) : Node :=
  Node.elem "color-palette" [("name", palette_name), ("type", palette_type)] none []

/-- Outcome of the add-palette button: `added` when the guard passed, the file
was rewritten and the screen was dismissed (running `refresh_palettes` as the
dismissal callback); `rejected` when the guard failed, in which case nothing
at all happens and the screen stays; `error` for an escaping exception. -/
inductive AddPaletteOutcome where
  | added (s : AppState)
  | rejected (s : AppState)
  | error (e : PyErr)
deriving Repr

/-- `AddPalette.add_new_palette` (tab_pal.py lines 110-139) followed, on
success, by the `refresh_palettes` callback (lines 282-306).  The duplicate
check reads `self.app.existing_palettes` — the cache — not the file; only
after the guard passes is the file parsed, the new element appended to
`tree.find("preferences")` (the first direct child of the root with that tag)
and the file rewritten.  `refresh_palettes` rebuilds the cache from the
rewritten file and repopulates the palette list, leaving no entry
highlighted; it does not touch the colour list pane. -/
def add_new_palette (s : AppState) (palette_name palette_type_label : String) :
    AddPaletteOutcome :=
  let existing_palettes_names := s.existing_palettes.map Palette.name
  let palette_type := labelToTypeCode palette_type_label
  if !(existing_palettes_names.contains (some palette_name)) && palette_name != "" then
    match s.file.childNodes.find? (Node.tagIs "preferences") with
    | none => .error .attributeError
    | some _ =>
      let file' :=
        match s.file with
        | .elem t a tx cs =>
            Node.elem t a tx (replaceFirstChildTagged "preferences"
              (appendChild (newPaletteElement palette_name palette_type)) cs)
        | .comment c => .comment c
      .added { s with
               file := file'
               existing_palettes := get_existing_palettes file'
               highlightedPalette := none }
  else .rejected s

/-- `TabPal.action_delete` (tab_pal.py lines 339-379).  The file is parsed
first; the palette highlight is read outside any `try`, so a missing palette
highlight raises an uncaught `TypeError`; a missing `preferences` child makes
`preferences.find` raise `AttributeError`.  The `try` block covers the colour
branch: a missing colour highlight (or iterating a `None` palette) raises
`TypeError`, caught by the `except` that runs the palette branch.  In the
colour branch, the first child of the found palette whose text equals the
highlighted colour — the iteration does not filter on the `color` tag — is
removed; an empty match list raises `IndexError` (uncaught).  In the palette
branch, `preferences.remove` succeeds only on a direct child, raising
`ValueError` otherwise; on success `refresh_palettes` rebuilds the cache and
leaves no palette highlighted, and the colour list pane is cleared. -/
def action_delete (s : AppState) : Except PyErr AppState :=
  let root := s.file
  let preferencesElem := root.childNodes.find? (Node.tagIs "preferences")
  match s.highlightedPalette with
  | none => .error .typeError
  | some highlighted_colour_palette =>
    match preferencesElem with
    | none => .error .attributeError
    | some prefs =>
      let colour_palette := findNodeList (palNamed highlighted_colour_palette)
        prefs.childNodes
      match s.highlightedColour, colour_palette with
      | some highlighted_colour, some cp =>
          if cp.childNodes.any (fun c => c.text == some highlighted_colour) then
            let file' :=
              match root with
              | .elem t a tx cs =>
                  Node.elem t a tx (replaceFirstChildTagged "preferences"
                    (fun pr => (updateFirstDesc (palNamed highlighted_colour_palette)
                      (removeColourFromPalette highlighted_colour) pr).getD pr) cs)
              | .comment c => .comment c
            let cache' := get_existing_palettes file'
            match (cache'.filter
                (fun p => p.name == some highlighted_colour_palette)).head? with
            | none => .error .indexError
            | some pal' =>
                .ok { s with
                      file := file'
                      existing_palettes := cache'
                      highlightedColour := none
                      colourList := pal'.colours }
          else .error .indexError
      | _, _ =>
          match removeDirectFirstMatch (palNamed highlighted_colour_palette)
              prefs.childNodes with
          | none => .error .valueError
          | some newChildren =>
              let file' :=
                match root with
                | .elem t a tx cs =>
                    Node.elem t a tx (replaceFirstChildTagged "preferences"
                      (Node.withChildren newChildren) cs)
                | .comment c => .comment c
              .ok { file := file'
                    existing_palettes := get_existing_palettes file'
                    highlightedPalette := none
                    highlightedColour := none
                    colourList := [] }

/-
Lemmas about the document-order search and update combinators.
-/

mutual

theorem findNodeDesc_none_forall (p : Node → Bool) :
    (n : Node) → findNodeDesc p n = none → ∀ m ∈ n.descendants, p m = false
  | .elem t a tx cs, h => by
      simp only [findNodeDesc] at h
      simpa only [Node.descendants] using findNodeList_none_forall p cs h
  | .comment s, _ => by simp [Node.descendants]

theorem findNodeList_none_forall (p : Node → Bool) :
    (l : List Node) → findNodeList p l = none → ∀ m ∈ descList l, p m = false
  | [], _ => by simp [descList]
  | c :: cs, h => by
      simp only [findNodeList] at h
      cases hpc : p c with
      | true => rw [hpc] at h; simp at h
      | false =>
          rw [hpc] at h
          simp only [Bool.false_eq_true, if_false] at h
          cases hfd : findNodeDesc p c with
          | some n => rw [hfd] at h; simp at h
          | none =>
              rw [hfd] at h
              simp only [descList, List.mem_cons, List.mem_append]
              rintro m (rfl | hm | hm)
              · exact hpc
              · exact findNodeDesc_none_forall p c hfd m hm
              · exact findNodeList_none_forall p cs h m hm

end

theorem findNodeList_cons_none {p : Node → Bool} {c : Node} {cs : List Node}
    (h : findNodeList p (c :: cs) = none) :
    p c = false ∧ findNodeDesc p c = none ∧ findNodeList p cs = none := by
  simp only [findNodeList] at h
  cases hpc : p c with
  | true => rw [hpc] at h; simp at h
  | false =>
      rw [hpc] at h
      simp only [Bool.false_eq_true, if_false] at h
      cases hfd : findNodeDesc p c with
      | some n => rw [hfd] at h; simp at h
      | none => exact ⟨rfl, rfl, by rwa [hfd] at h⟩

theorem findNodeList_append_none {p : Node → Bool} {l r : List Node}
    (hl : findNodeList p l = none) :
    findNodeList p (l ++ r) = findNodeList p r := by
  induction l with
  | nil => rfl
  | cons c cs ih =>
      obtain ⟨hpc, hfd, htl⟩ := findNodeList_cons_none hl
      simp only [List.cons_append, findNodeList, hpc, Bool.false_eq_true, if_false, hfd]
      exact ih htl

theorem findNodeList_cons_found {p : Node → Bool} {P : Node} (cs : List Node)
    (hP : p P = true) : findNodeList p (P :: cs) = some P := by
  simp [findNodeList, hP]

mutual

theorem updateFirstDesc_none (p : Node → Bool) (f : Node → Node) :
    (n : Node) → findNodeDesc p n = none → updateFirstDesc p f n = none
  | .elem t a tx cs, h => by
      simp only [findNodeDesc] at h
      simp only [updateFirstDesc, updateFirstInList_none p f cs h, Option.map_none']
  | .comment s, _ => rfl

theorem updateFirstInList_none (p : Node → Bool) (f : Node → Node) :
    (l : List Node) → findNodeList p l = none → updateFirstInList p f l = none
  | [], _ => rfl
  | c :: cs, h => by
      obtain ⟨hpc, hfd, htl⟩ := findNodeList_cons_none h
      simp only [updateFirstInList, hpc, Bool.false_eq_true, if_false,
        updateFirstDesc_none p f c hfd, updateFirstInList_none p f cs htl,
        Option.map_none']

end

theorem updateFirstInList_append_none {p : Node → Bool} {f : Node → Node}
    {l : List Node} (r : List Node) (hl : findNodeList p l = none) :
    updateFirstInList p f (l ++ r) = (updateFirstInList p f r).map (l ++ ·) := by
  induction l with
  | nil => simp
  | cons c cs ih =>
      obtain ⟨hpc, hfd, htl⟩ := findNodeList_cons_none hl
      have ih' := ih htl
      simp only [List.cons_append, updateFirstInList, hpc, Bool.false_eq_true, if_false,
        updateFirstDesc_none p f c hfd, List.append_eq] at ih' ⊢
      rw [ih']
      cases updateFirstInList p f r <;> simp

theorem updateFirstInList_found {p : Node → Bool} {f : Node → Node}
    {l : List Node} (r : List Node) (P : Node)
    (hl : findNodeList p l = none) (hP : p P = true) :
    updateFirstInList p f (l ++ P :: r) = some (l ++ f P :: r) := by
  rw [updateFirstInList_append_none (P :: r) hl]
  simp [updateFirstInList, hP]

theorem removeDirectFirstMatch_found {p : Node → Bool} {l : List Node}
    (r : List Node) (P : Node)
    (hl : findNodeList p l = none) (hP : p P = true) :
    removeDirectFirstMatch p (l ++ P :: r) = some (l ++ r) := by
  induction l with
  | nil => simp [removeDirectFirstMatch, hP]
  | cons c cs ih =>
      obtain ⟨hpc, hfd, htl⟩ := findNodeList_cons_none hl
      have ih' := ih htl
      simp only [List.cons_append, removeDirectFirstMatch, hpc, Bool.false_eq_true,
        if_false, hfd, List.append_eq] at ih' ⊢
      rw [ih']
      simp

theorem replaceFirstChildTagged_append {t : String} {f : Node → Node}
    {l : List Node} (r : List Node)
    (hl : ∀ n ∈ l, Node.tagIs t n = false) :
    replaceFirstChildTagged t f (l ++ r) = l ++ replaceFirstChildTagged t f r := by
  induction l with
  | nil => rfl
  | cons c cs ih =>
      have hc := hl c (by simp)
      simp only [List.cons_append, replaceFirstChildTagged, hc, Bool.false_eq_true,
        if_false, List.append_eq]
      rw [ih (fun n hn => hl n (by simp [hn]))]

theorem find_tagged_append {t : String} {l : List Node} (r : List Node) (P : Node)
    (hl : ∀ n ∈ l, Node.tagIs t n = false) (hP : Node.tagIs t P = true) :
    (l ++ P :: r).find? (Node.tagIs t) = some P := by
  induction l with
  | nil => simp [List.find?, hP]
  | cons c cs ih =>
      have hc := hl c (by simp)
      simp only [List.cons_append, List.find?, hc]
      exact ih (fun n hn => hl n (by simp [hn]))

theorem descList_append (l r : List Node) :
    descList (l ++ r) = descList l ++ descList r := by
  induction l with
  | nil => rfl
  | cons c cs ih => simp [descList, ih]

theorem removeFirstWithText_append {H : String} {X : List Node} (Y : List Node)
    (c0 : Node) (hX : ∀ x ∈ X, (x.text == some H) = false)
    (hc0 : c0.text = some H) :
    removeFirstWithText H (X ++ c0 :: Y) = X ++ Y := by
  induction X with
  | nil => simp [removeFirstWithText, hc0]
  | cons x xs ih =>
      have hx := hX x (by simp)
      simp only [List.cons_append, removeFirstWithText, hx, Bool.false_eq_true, if_false,
        List.append_eq]
      rw [ih (fun n hn => hX n (by simp [hn]))]

/-
Lemmas about the palette projection.
-/

theorem palettesOf_append (l r : List Node) :
    palettesOf (l ++ r) = palettesOf l ++ palettesOf r := by
  simp [palettesOf, List.filter_append]

theorem palettesOf_name_filter_nil {N : String} {l : List Node}
    (h : ∀ x ∈ l, palNamed N x = false) :
    (palettesOf l).filter (fun q => q.name == some N) = [] := by
  induction l with
  | nil => rfl
  | cons c cs ih =>
      have hc := h c (by simp)
      have ihtl := ih (fun n hn => h n (by simp [hn]))
      cases htag : Node.tagIs "color-palette" c with
      | false => simpa [palettesOf, htag] using ihtl
      | true =>
          have hname : (Node.getAttr "name" c == some N) = false := by
            have : (Node.tagIs "color-palette" c &&
                (Node.getAttr "name" c == some N)) = false := hc
            rwa [htag, Bool.true_and] at this
          have hpal : ((paletteOfElement c).name == some N) = false := by
            simpa [paletteOfElement] using hname
          simpa [palettesOf, htag, List.filter, hpal] using ihtl

theorem palNamed_split {N : String} {x : Node} (h : palNamed N x = true) :
    Node.tagIs "color-palette" x = true ∧ (Node.getAttr "name" x == some N) = true := by
  simpa [palNamed, Bool.and_eq_true] using h

/-- The head of the name-filtered cache for a document of the shape the app
manipulates: a root whose children are `L`, then a container element, then
`R`, the container holding `A`, then the palette `P`, then `B`.  When nothing
in `L`, in the container tag, or in `A` (at any depth) is a `color-palette`
named `N` while `P` is one, the first cache entry named `N` is the projection
of `P`. -/
theorem cache_head_of_shape (N : String) {rt ptag : String}
    {ra pa : List (String × String)} {rtx ptx : Option String}
    {L R A B : List Node} {P : Node}
    (hL : findNodeList (palNamed N) L = none)
    (hA : findNodeList (palNamed N) A = none)
    (hptag : (ptag == "color-palette") = false)
    (hP : palNamed N P = true) :
    ((get_existing_palettes (Node.elem rt ra rtx
        (L ++ Node.elem ptag pa ptx (A ++ P :: B) :: R))).filter
      (fun q => q.name == some N)).head? = some (paletteOfElement P) := by
  obtain ⟨htag, hname⟩ := palNamed_split hP
  have hLall := findNodeList_none_forall (palNamed N) L hL
  have hAall := findNodeList_none_forall (palNamed N) A hA
  have hprefs : palNamed N (Node.elem ptag pa ptx (A ++ P :: B)) = false := by
    simp [palNamed, Node.tagIs, hptag]
  have hdesc : descList (L ++ Node.elem ptag pa ptx (A ++ P :: B) :: R) =
      (descList L ++ Node.elem ptag pa ptx (A ++ P :: B) :: descList A) ++
        P :: (Node.descendants P ++ descList B ++ descList R) := by
    rw [descList_append]
    simp [descList, Node.descendants, descList_append, List.append_assoc]
  have hfront : ∀ x ∈ descList L ++ Node.elem ptag pa ptx (A ++ P :: B) :: descList A,
      palNamed N x = false := by
    intro x hx
    rcases List.mem_append.1 hx with hx | hx
    · exact hLall x hx
    · rcases List.mem_cons.1 hx with rfl | hx
      · exact hprefs
      · exact hAall x hx
  rw [get_existing_palettes, Node.childNodes, hdesc, palettesOf_append,
    List.filter_append, palettesOf_name_filter_nil hfront]
  have hpal : ((paletteOfElement P).name == some N) = true := by
    simpa [paletteOfElement] using hname
  simp [palettesOf, List.filter, htag, hpal]

/-
Membership lemmas: a direct child of a direct child of the root occurs among
the descendants of the root.
-/

theorem mem_descList_self {l : List Node} {a : Node} (h : a ∈ l) : a ∈ descList l := by
  induction l with
  | nil => cases h
  | cons c cs ih =>
      rcases List.mem_cons.1 h with rfl | h
      · simp [descList]
      · simp [descList, ih h]

theorem mem_descList_child {l : List Node} {n c : Node}
    (hn : n ∈ l) (hc : c ∈ n.childNodes) : c ∈ descList l := by
  induction l with
  | nil => cases hn
  | cons d ds ih =>
      rcases List.mem_cons.1 hn with rfl | hn
      · have : c ∈ Node.descendants n := by
          cases n with
          | elem t a tx cs => simpa [Node.descendants] using
              mem_descList_self (by simpa [Node.childNodes] using hc)
          | comment s => simp [Node.childNodes] at hc
        simp [descList, this]
      · simp [descList, ih hn]

/-
Fixpoint lemmas for the comment-stripping parser model.
-/

mutual

theorem stripComments_of_commentFree :
    (n : Node) → Node.commentFree n = true → stripComments n = n
  | .elem t a tx cs, h => by
      simp only [Node.commentFree] at h
      simp only [stripComments, stripList_of_commentFreeList cs h]
  | .comment s, h => by simp [Node.commentFree] at h

theorem stripList_of_commentFreeList :
    (l : List Node) → commentFreeList l = true → stripList l = l
  | [], _ => rfl
  | .comment s :: cs, h => by simp [commentFreeList, Node.commentFree] at h
  | .elem t a tx cs :: rest, h => by
      simp only [commentFreeList, Bool.and_eq_true] at h
      simp only [stripList, stripComments_of_commentFree _ h.1,
        stripList_of_commentFreeList rest h.2]

end

/-
Concrete documents and states used by the counterexamples and witnesses.
-/

/-- A Brand palette holding one colour, as in the concrete scenario of the
specification. -/
def brandPalette : Node :=
  Node.elem "color-palette" [("name", "Brand"), ("type", "regular")] none
    [colorElement "#112233"]

/-- An empty second palette. -/
def otherPalette : Node :=
  Node.elem "color-palette" [("name", "Other"), ("type", "regular")] none []

/-- A preferences document holding the palettes Brand (with colour #112233)
and Other (empty). -/
def fileBrand : Node :=
  Node.elem "workbook" [] none
    [Node.elem "preferences" [] none [brandPalette, otherPalette]]

/-- The app state over `fileBrand` with Brand highlighted, a fresh cache and
no colour highlighted. -/
def sBrand : AppState :=
  { file := fileBrand
    existing_palettes := get_existing_palettes fileBrand
    highlightedPalette := some "Brand"
    highlightedColour := none
    colourList := [some "#112233"] }

/-- Comment-node test. -/
def isCommentNode : Node → Bool
  | .comment _ => true
  | .elem _ _ _ _ => false

/-- The Brand document with an XML comment among the palettes. -/
def commentedDoc : Node :=
  Node.elem "workbook" [] none
    [Node.elem "preferences" [] none
      [Node.comment " my favourite palettes ", brandPalette]]

/-- A document whose only palette is nested one level below the preferences
element rather than being its direct child. -/
def fileNested : Node :=
  Node.elem "workbook" [] none
    [Node.elem "preferences" [] none
      [Node.elem "style" [] none
        [Node.elem "color-palette" [("name", "Nested"), ("type", "regular")] none []]]]

/-- State over `fileNested` with the nested palette highlighted and no colour
highlighted. -/
def sNested : AppState :=
  { file := fileNested
    existing_palettes := get_existing_palettes fileNested
    highlightedPalette := some "Nested"
    highlightedColour := none
    colourList := [] }

/-- State over `fileBrand` in which the cache has not been rebuilt from the
file (the file already holds Brand, the cache is empty). -/
def sStaleCache : AppState :=
  { file := fileBrand
    existing_palettes := []
    highlightedPalette := none
    highlightedColour := none
    colourList := [] }

/-- The Brand document after a second palette named Brand has been appended. -/
def fileBrandDup : Node :=
  Node.elem "workbook" [] none
    [Node.elem "preferences" [] none
      [brandPalette, otherPalette, newPaletteElement "Brand" "regular"]]

/-- The state produced by adding the duplicate Brand palette over
`sStaleCache`. -/
def sStaleCacheAfter : AppState :=
  { file := fileBrandDup
    existing_palettes := get_existing_palettes fileBrandDup
    highlightedPalette := none
    highlightedColour := none
    colourList := [] }

/-- State over `fileBrand` in which no palette and no colour is highlighted. -/
def sNothingHighlighted : AppState :=
  { file := fileBrand
    existing_palettes := get_existing_palettes fileBrand
    highlightedPalette := none
    highlightedColour := none
    colourList := [] }

/-
Claim C2.
-/

/-- C2, counterexample.  Re-persisting the document loaded from a file that
contains an XML comment under `preferences` does not reproduce the original:
the comment — non-palette sibling content that is neither palette ordering
nor whitespace — is discarded by the parser, so the rewritten file cannot be
byte-identical to the original outside palette ordering and whitespace. -/
theorem roundtrip_drops_comment_cex :
    persist_document (load_document commentedDoc) ≠ commentedDoc ∧
    ((descList commentedDoc.childNodes).filter isCommentNode).length = 1 ∧
    ((descList (persist_document (load_document commentedDoc)).childNodes).filter
      isCommentNode).length = 0 := by
  refine ⟨?_, rfl, rfl⟩
  intro h
  have h2 := congrArg
    (fun d => ((descList d.childNodes).filter isCommentNode).length) h
  exact absurd h2 (by decide)

/-- C2 (amended): for every preferences document containing no comment
nodes, persisting the document loaded from the file reproduces the element
tree exactly — every tag, attribute, text value and child ordering, palette
and non-palette content alike, is unchanged.  Documents containing comments
lose exactly those comment nodes, and the serialiser emits its own fixed
utf-8 declaration line, so byte-identity holds only up to those two
normalisations. -/
theorem roundtrip_identity_on_comment_free (d : Node)
    (h : Node.commentFree d = true) :
    persist_document (load_document d) = d :=
  stripComments_of_commentFree d h

/-- Witness for `roundtrip_identity_on_comment_free` at the Brand document. -/
theorem roundtrip_identity_on_comment_free_witness :
    Node.commentFree fileBrand = true ∧
      persist_document (load_document fileBrand) = fileBrand :=
  ⟨rfl, roundtrip_identity_on_comment_free fileBrand rfl⟩

/-
Claim C9.
-/

/-- C9: with neither a palette nor a colour highlighted, the delete action is
not a no-op — after opening and parsing the preferences file it reads the
palette highlight outside any `try` block, and `get_option_at_index(None)`
raises a `TypeError` that nothing catches, crashing the session. -/
theorem delete_with_nothing_highlighted_raises :
    action_delete sNothingHighlighted = .error PyErr.typeError := rfl

/-
Claim C10.
-/

/-- C10: the cache projection collects `color-palette` elements at any depth
(`findall(".//color-palette")`), so a palette nested below a `style` element
inside `preferences` is listed in the cache, while the palette-removal branch
of the delete action (`preferences.remove`) only removes direct children of
the `preferences` element and raises `ValueError` on that same palette. -/
theorem nested_palette_listed_but_not_removable :
    get_existing_palettes fileNested =
      [{ name := some "Nested", type := some "regular", colours := [] }] ∧
    action_delete sNested = .error PyErr.valueError :=
  ⟨rfl, rfl⟩

/-
Claim C6.
-/

/-- C6, counterexample.  The duplicate-name check of the add-palette screen
reads `self.app.existing_palettes` — the cache — and not the freshly re-read
file: over a state whose file already holds a palette named Brand but whose
cache is empty, adding Brand succeeds and writes a second Brand palette.  A
check against the freshly reloaded document would have rejected it. -/
theorem duplicate_check_ignores_file_cex :
    ((get_existing_palettes sStaleCache.file).filter
      (fun q => q.name == some "Brand")).length = 1 ∧
    add_new_palette sStaleCache "Brand" "Categorical" = .added sStaleCacheAfter ∧
    ((get_existing_palettes sStaleCacheAfter.file).filter
      (fun q => q.name == some "Brand")).length = 2 :=
  ⟨rfl, rfl, rfl⟩

/-- C6 (amended): the duplicate-name check of the palette-adding operation is
evaluated against the in-memory palette cache, not against the re-read file:
the operation is rejected exactly when the submitted name occurs among the
cached palette names or is blank, independently of the file contents.
Because the cache is rebuilt from the file after every successful mutation,
within one session the check still sees the names produced by all earlier
mutations. -/
theorem duplicate_check_depends_only_on_cache (s : AppState) (N k : String) :
    add_new_palette s N k = .rejected s ↔
      ((s.existing_palettes.map Palette.name).contains (some N) = true ∨ N = "") := by
  unfold add_new_palette
  by_cases hc : (s.existing_palettes.map Palette.name).contains (some N) = true
  · have hcond : (!(s.existing_palettes.map Palette.name).contains (some N) &&
        (N != "")) = false := by rw [hc]; rfl
    simp only [hcond, Bool.false_eq_true, if_false]
    exact iff_of_true trivial (Or.inl hc)
  · have hc' : (s.existing_palettes.map Palette.name).contains (some N) = false :=
      Bool.not_eq_true _ ▸ Bool.of_not_eq_true hc
    by_cases hN : N = ""
    · subst hN
      simp [hc']
    · have hN' : (N != "") = true := bne_iff_ne.2 hN
      simp only [hc', Bool.not_false, Bool.true_and, hN', if_true]
      constructor
      · intro h
        cases hfind : s.file.childNodes.find? (Node.tagIs "preferences") with
        | none => rw [hfind] at h; exact absurd h (by simp)
        | some q => rw [hfind] at h; exact absurd h (by simp)
      · rintro (h | h)
        · exact absurd h (by simp [hc'])
        · exact absurd h hN

/-
Claim C1.
-/

/-- C1: after every successful mutation the cache equals the projection of
the persisted document re-read from disk.  The colour submission either
leaves the state untouched (validation failed or duplicate, no mutation) or
ends with a cache rebuilt by `get_existing_palettes` from the rewritten file;
both delete branches and the palette-adding screen likewise rebuild the cache
from the rewritten file before returning, so no stale or incompletely updated
cache is ever observable after a successful mutation. -/
theorem cache_fresh_after_every_mutation (s : AppState) :
    (∀ v s', process_input s v = .ok s' →
        s' = s ∨ s'.existing_palettes = get_existing_palettes s'.file) ∧
    (∀ s', action_delete s = .ok s' →
        s'.existing_palettes = get_existing_palettes s'.file) ∧
    (∀ n k s', add_new_palette s n k = .added s' →
        s'.existing_palettes = get_existing_palettes s'.file) ∧
    (∀ n k s', add_new_palette s n k = .rejected s' → s' = s) := by
  refine ⟨?_, ?_, ?_, ?_⟩
  · intro v s' h
    simp only [process_input] at h
    split at h
    · cases h
      exact Or.inl rfl
    · split at h
      · simp at h
      · split at h
        · split at h
          · simp at h
          · split at h
            · simp at h
            · cases h
              exact Or.inr rfl
        · cases h
          exact Or.inl rfl
  · intro s' h
    simp only [action_delete] at h
    split at h
    · simp at h
    · split at h
      · simp at h
      · split at h
        · split at h
          · split at h
            · simp at h
            · cases h
              rfl
          · simp at h
        · split at h
          · simp at h
          · cases h
            rfl
  · intro n k s' h
    simp only [add_new_palette] at h
    split at h
    · split at h
      · simp at h
      · cases h
        rfl
    · simp at h
  · intro n k s' h
    simp only [add_new_palette] at h
    split at h
    · split at h
      · simp at h
      · simp at h
    · cases h
      rfl

/-- The document left after deleting the Brand palette from `fileBrand`. -/
def fileOnlyOther : Node :=
  Node.elem "workbook" [] none [Node.elem "preferences" [] none [otherPalette]]

/-- The state reached from `sBrand` by deleting the highlighted Brand
palette. -/
def sAfterBrandDeleted : AppState :=
  { file := fileOnlyOther
    existing_palettes := get_existing_palettes fileOnlyOther
    highlightedPalette := none
    highlightedColour := none
    colourList := [] }

/-- Witness for `cache_fresh_after_every_mutation`: deleting the highlighted
Brand palette over the Brand document yields a state whose cache is the
projection of the rewritten file. -/
theorem cache_fresh_after_every_mutation_witness :
    action_delete sBrand = .ok sAfterBrandDeleted ∧
    sAfterBrandDeleted.existing_palettes =
      get_existing_palettes sAfterBrandDeleted.file :=
  ⟨rfl, (cache_fresh_after_every_mutation sBrand).2.1 _ rfl⟩

/-
Claim C5.
-/

/-- C5: submitting a palette name that already names a palette among the
children of the preferences element — or a blank name — is rejected by the
guard of the add-palette screen before the file is opened: nothing is
written, the screen is not dismissed, and the state (including the persisted
document) is exactly unchanged.  The hypothesis `hsync` is the cache
invariant of claim C1 that holds at every reachable state. -/
theorem add_palette_rejects_duplicate_or_blank (s : AppState) (N k : String)
    (prefsN P : Node)
    (hsync : s.existing_palettes = get_existing_palettes s.file)
    (hcase : (prefsN ∈ s.file.childNodes ∧ P ∈ prefsN.childNodes ∧
        Node.tagIs "color-palette" P = true ∧ Node.getAttr "name" P = some N) ∨
      N = "") :
    add_new_palette s N k = .rejected s := by
  rcases hcase with ⟨hmem, hcmem, htag, hname⟩ | rfl
  · have hdesc : P ∈ descList s.file.childNodes := mem_descList_child hmem hcmem
    have hfilter : P ∈ (descList s.file.childNodes).filter (Node.tagIs "color-palette") :=
      List.mem_filter.2 ⟨hdesc, htag⟩
    have hpal : paletteOfElement P ∈ get_existing_palettes s.file :=
      List.mem_map_of_mem paletteOfElement hfilter
    have hnm : some N ∈ s.existing_palettes.map Palette.name := by
      rw [hsync]
      have := List.mem_map_of_mem Palette.name hpal
      rwa [show (paletteOfElement P).name = some N by simp [paletteOfElement, hname]]
        at this
    have hcontains : (s.existing_palettes.map Palette.name).contains (some N) = true := by
      exact List.elem_eq_true_of_mem hnm
    have hcond : (!(s.existing_palettes.map Palette.name).contains (some N) &&
        (N != "")) = false := by rw [hcontains]; rfl
    simp only [add_new_palette, hcond, Bool.false_eq_true, if_false]
  · have hcond : (!(s.existing_palettes.map Palette.name).contains (some "") &&
        ("" != "")) = false := by simp
    simp only [add_new_palette, hcond, Bool.false_eq_true, if_false]

/-- Witness for `add_palette_rejects_duplicate_or_blank`: adding another
Brand over the Brand document is rejected with the state unchanged. -/
theorem add_palette_rejects_duplicate_or_blank_witness :
    add_new_palette sBrand "Brand" "Categorical" = .rejected sBrand :=
  add_palette_rejects_duplicate_or_blank sBrand "Brand" "Categorical"
    (Node.elem "preferences" [] none [brandPalette, otherPalette]) brandPalette
    rfl (Or.inl ⟨by simp [sBrand, fileBrand, Node.childNodes],
      by simp [Node.childNodes], rfl, rfl⟩)

/-
Claim C4.
-/

/-- C4 (amended): the colour-duplicate check is an exact, case-sensitive
string comparison of the `#`-prefixed input against the cached colour list of
the highlighted palette: when that exact string is already present the
submission is a no-op (nothing written, nothing refreshed, state exactly
unchanged).  Presence of a case-variant of the same colour does not trigger
the check (see the counterexample). -/
theorem add_colour_noop_on_exact_duplicate (s : AppState) (N v : String)
    (pal : Palette)
    (hhl : s.highlightedPalette = some N)
    (hlook : (s.existing_palettes.filter (fun p => p.name == some N)).head? =
      some pal)
    (hmem : pal.colours.contains (some (canonicalInput v)) = true) :
    process_input s v = .ok s := by
  have hcond : (matchesHexRegex (canonicalInput v) &&
      !pal.colours.contains (some (canonicalInput v))) = false := by
    rw [hmem]
    simp
  simp only [process_input, hhl, hlook, hcond, Bool.false_eq_true, if_false]

/-- A Brand palette holding the upper-case colour #AABBCC. -/
def brandUpper : Node :=
  Node.elem "color-palette" [("name", "Brand"), ("type", "regular")] none
    [colorElement "#AABBCC"]

/-- Document holding only `brandUpper`. -/
def fileBrandUpper : Node :=
  Node.elem "workbook" [] none [Node.elem "preferences" [] none [brandUpper]]

/-- State over `fileBrandUpper` with Brand highlighted. -/
def sBrandUpper : AppState :=
  { file := fileBrandUpper
    existing_palettes := get_existing_palettes fileBrandUpper
    highlightedPalette := some "Brand"
    highlightedColour := none
    colourList := [some "#AABBCC"] }

/-- The Brand palette after the lower-case variant has been appended. -/
def brandUpperDup : Node :=
  Node.elem "color-palette" [("name", "Brand"), ("type", "regular")] none
    [colorElement "#AABBCC", colorElement "#aabbcc"]

/-- Document holding `brandUpperDup`. -/
def fileBrandUpperDup : Node :=
  Node.elem "workbook" [] none [Node.elem "preferences" [] none [brandUpperDup]]

/-- The state reached from `sBrandUpper` by submitting `aabbcc`. -/
def sBrandUpperAfter : AppState :=
  { file := fileBrandUpperDup
    existing_palettes := get_existing_palettes fileBrandUpperDup
    highlightedPalette := some "Brand"
    highlightedColour := none
    colourList := [some "#AABBCC", some "#aabbcc"] }

/-- C4, counterexample.  With the highlighted palette holding `#AABBCC`,
submitting `aabbcc` canonicalises (with case normalisation, as the claim
reads it) to something already present — yet the operation is not a no-op:
the comparison in the code is exact and case-sensitive, so `#aabbcc` is
appended and the palette ends up holding the same colour twice in different
letter cases. -/
theorem duplicate_check_case_sensitive_cex :
    canonicalInput "aabbcc" = "#aabbcc" ∧
    process_input sBrandUpper "aabbcc" = .ok sBrandUpperAfter ∧
    sBrandUpperAfter.colourList = [some "#AABBCC", some "#aabbcc"] :=
  ⟨rfl, rfl, rfl⟩

/-- Witness for `add_colour_noop_on_exact_duplicate`: submitting the exact
string `#AABBCC` over `sBrandUpper` changes nothing. -/
theorem add_colour_noop_on_exact_duplicate_witness :
    process_input sBrandUpper "#AABBCC" = .ok sBrandUpper :=
  add_colour_noop_on_exact_duplicate sBrandUpper "Brand" "#AABBCC"
    (paletteOfElement brandUpper) rfl rfl rfl

/-
Claim C3.
-/

/-- The Brand palette of `fileBrand` after `aabbcc` has been submitted: the
stored text keeps the letter case of the input. -/
def brandPaletteLower : Node :=
  Node.elem "color-palette" [("name", "Brand"), ("type", "regular")] none
    [colorElement "#112233", colorElement "#aabbcc"]

/-- Document after the submission. -/
def fileBrandLower : Node :=
  Node.elem "workbook" [] none
    [Node.elem "preferences" [] none [brandPaletteLower, otherPalette]]

/-- The state reached from `sBrand` by submitting `aabbcc`. -/
def sBrandLower : AppState :=
  { file := fileBrandLower
    existing_palettes := get_existing_palettes fileBrandLower
    highlightedPalette := some "Brand"
    highlightedColour := none
    colourList := [some "#112233", some "#aabbcc"] }

/-- C3, counterexample.  Submitting `aabbcc` with Brand (holding `#112233`)
highlighted succeeds, but the stored and displayed entry is `#aabbcc`: the
code prefixes the missing `#` and never normalises letter case, so the colour
list is not the `["#112233", "#AABBCC"]` the claim asserts. -/
theorem add_colour_no_case_normalisation_cex :
    process_input sBrand "aabbcc" = .ok sBrandLower ∧
    sBrandLower.colourList = [some "#112233", some "#aabbcc"] ∧
    ([some "#112233", some "#aabbcc"] : List (Option String)) ≠
      [some "#112233", some "#AABBCC"] :=
  ⟨rfl, rfl, by decide⟩

/-- C3 (amended): submitting a string that passes the hex validation after a
`#` is prefixed (when shorter than seven characters) and whose exact
`#`-prefixed form is not yet in the highlighted palette succeeds: the colour
is appended to the palette element in the file in that exact form — the
letter case of the input is preserved, with no case normalisation — the
cache is rebuilt from the rewritten file, and the colour list shows the old
colours followed by the new entry, which then occurs exactly once. -/
theorem add_colour_appends_exact_form (s : AppState) (N v rt ptag : String)
    (ra pa pattrs : List (String × String)) (rtx ptx ptx2 : Option String)
    (L R A B pcs : List Node)
    (hfile : s.file = Node.elem rt ra rtx
      (L ++ Node.elem ptag pa ptx
        (A ++ Node.elem "color-palette" pattrs ptx2 pcs :: B) :: R))
    (hsync : s.existing_palettes = get_existing_palettes s.file)
    (hhl : s.highlightedPalette = some N)
    (hL : findNodeList (palNamed N) L = none)
    (hA : findNodeList (palNamed N) A = none)
    (hptag : (ptag == "color-palette") = false)
    (hname : (pattrs.find? (fun q => q.1 == "name")).map Prod.snd = some N)
    (hvalid : matchesHexRegex (canonicalInput v) = true)
    (hnew : ((pcs.filter (Node.tagIs "color")).map Node.text).contains
        (some (canonicalInput v)) = false) :
    process_input s v = .ok { s with
      file := Node.elem rt ra rtx
        (L ++ Node.elem ptag pa ptx
          (A ++ Node.elem "color-palette" pattrs ptx2
            (pcs ++ [colorElement (canonicalInput v)]) :: B) :: R)
      existing_palettes := get_existing_palettes (Node.elem rt ra rtx
        (L ++ Node.elem ptag pa ptx
          (A ++ Node.elem "color-palette" pattrs ptx2
            (pcs ++ [colorElement (canonicalInput v)]) :: B) :: R))
      highlightedColour := none
      colourList := (pcs.filter (Node.tagIs "color")).map Node.text ++
        [some (canonicalInput v)] } ∧
    ((pcs.filter (Node.tagIs "color")).map Node.text ++
        [some (canonicalInput v)]).count (some (canonicalInput v)) = 1 := by
  have hP : palNamed N (Node.elem "color-palette" pattrs ptx2 pcs) = true := by
    simp [palNamed, Node.tagIs, Node.getAttr, hname]
  have hP' : palNamed N (Node.elem "color-palette" pattrs ptx2
      (pcs ++ [colorElement (canonicalInput v)])) = true := by
    simp [palNamed, Node.tagIs, Node.getAttr, hname]
  have hprefs : palNamed N (Node.elem ptag pa ptx
      (A ++ Node.elem "color-palette" pattrs ptx2 pcs :: B)) = false := by
    simp [palNamed, Node.tagIs, hptag]
  have hlook : (s.existing_palettes.filter (fun p => p.name == some N)).head? =
      some (paletteOfElement (Node.elem "color-palette" pattrs ptx2 pcs)) := by
    rw [hsync, hfile]
    exact cache_head_of_shape N hL hA hptag hP
  have hupd : add_new_colour s.file N (canonicalInput v) =
      some (Node.elem rt ra rtx (L ++ Node.elem ptag pa ptx
        (A ++ Node.elem "color-palette" pattrs ptx2
          (pcs ++ [colorElement (canonicalInput v)]) :: B) :: R)) := by
    rw [hfile]
    simp only [add_new_colour, updateFirstDesc]
    rw [updateFirstInList_append_none
      (Node.elem ptag pa ptx
        (A ++ Node.elem "color-palette" pattrs ptx2 pcs :: B) :: R) hL]
    simp only [updateFirstInList, hprefs, Bool.false_eq_true, if_false,
      updateFirstDesc]
    rw [updateFirstInList_found B (Node.elem "color-palette" pattrs ptx2 pcs) hA hP]
    simp [appendChild]
  have hlook2 : ((get_existing_palettes (Node.elem rt ra rtx
      (L ++ Node.elem ptag pa ptx
        (A ++ Node.elem "color-palette" pattrs ptx2
          (pcs ++ [colorElement (canonicalInput v)]) :: B) :: R))).filter
      (fun p => p.name == some N)).head? =
      some (paletteOfElement (Node.elem "color-palette" pattrs ptx2
        (pcs ++ [colorElement (canonicalInput v)]))) :=
    cache_head_of_shape N hL hA hptag hP'
  have hcolours : (paletteOfElement
      (Node.elem "color-palette" pattrs ptx2 pcs)).colours =
      (pcs.filter (Node.tagIs "color")).map Node.text := by
    simp [paletteOfElement, Node.childNodes]
  have hcolours2 : (paletteOfElement (Node.elem "color-palette" pattrs ptx2
      (pcs ++ [colorElement (canonicalInput v)]))).colours =
      (pcs.filter (Node.tagIs "color")).map Node.text ++
        [some (canonicalInput v)] := by
    simp [paletteOfElement, Node.childNodes, List.filter_append, colorElement,
      Node.tagIs, Node.text]
  have hcond : (matchesHexRegex (canonicalInput v) &&
      !((paletteOfElement
        (Node.elem "color-palette" pattrs ptx2 pcs)).colours.contains
          (some (canonicalInput v)))) = true := by
    rw [hcolours, hvalid, hnew]
    rfl
  have hnotmem : some (canonicalInput v) ∉
      (pcs.filter (Node.tagIs "color")).map Node.text := by
    intro hm
    have h2 : ((pcs.filter (Node.tagIs "color")).map Node.text).contains
        (some (canonicalInput v)) = true := List.elem_eq_true_of_mem hm
    rw [h2] at hnew
    exact Bool.noConfusion hnew
  constructor
  · simp only [process_input, hhl, hlook, hcond, if_true, hupd, hlook2, hcolours2]
  · rw [List.count_append, List.count_eq_zero.2 hnotmem]
    simp

/-- Witness for `add_colour_appends_exact_form`: submitting `abc123` over the
Brand document appends `#abc123` exactly once. -/
theorem add_colour_appends_exact_form_witness :
    process_input sBrand "abc123" = .ok { sBrand with
      file := Node.elem "workbook" [] none
        [Node.elem "preferences" [] none
          [Node.elem "color-palette" [("name", "Brand"), ("type", "regular")] none
            [colorElement "#112233", colorElement "#abc123"], otherPalette]]
      existing_palettes := get_existing_palettes (Node.elem "workbook" [] none
        [Node.elem "preferences" [] none
          [Node.elem "color-palette" [("name", "Brand"), ("type", "regular")] none
            [colorElement "#112233", colorElement "#abc123"], otherPalette]])
      highlightedColour := none
      colourList := [some "#112233", some "#abc123"] } ∧
    ([some "#112233", some "#abc123"] : List (Option String)).count
      (some "#abc123") = 1 :=
  add_colour_appends_exact_form sBrand "Brand" "abc123" "workbook" "preferences"
    [] [] [("name", "Brand"), ("type", "regular")] none none none
    [] [] [] [otherPalette] [colorElement "#112233"]
    rfl rfl rfl rfl rfl rfl rfl rfl rfl

/-
Claim C7.
-/

/-- A Brand palette whose first child is a non-`color` element carrying the
same text as its single colour. -/
def notePalette : Node :=
  Node.elem "color-palette" [("name", "Brand"), ("type", "regular")] none
    [Node.elem "note" [] (some "#AABBCC") [], colorElement "#AABBCC"]

/-- Document holding `notePalette`. -/
def fileNote : Node :=
  Node.elem "workbook" [] none [Node.elem "preferences" [] none [notePalette]]

/-- State over `fileNote` with the Brand palette and the colour `#AABBCC`
highlighted. -/
def sNote : AppState :=
  { file := fileNote
    existing_palettes := get_existing_palettes fileNote
    highlightedPalette := some "Brand"
    highlightedColour := some "#AABBCC"
    colourList := [some "#AABBCC"] }

/-- The Brand palette after the delete: the `note` element is gone, the
`color` element survives. -/
def notePaletteAfter : Node :=
  Node.elem "color-palette" [("name", "Brand"), ("type", "regular")] none
    [colorElement "#AABBCC"]

/-- Document holding `notePaletteAfter`. -/
def fileNoteAfter : Node :=
  Node.elem "workbook" [] none [Node.elem "preferences" [] none [notePaletteAfter]]

/-- The state reached from `sNote` by the delete action. -/
def sNoteAfter : AppState :=
  { file := fileNoteAfter
    existing_palettes := get_existing_palettes fileNoteAfter
    highlightedPalette := some "Brand"
    highlightedColour := none
    colourList := [some "#AABBCC"] }

/-- C7, counterexample.  Deleting the highlighted colour `#AABBCC` from the
palette whose first child is a `note` element with the same text removes the
`note` element, not the first `color` child: the iteration
`[c for c in palette if c.text == hc]` does not filter on the `color` tag.
After the delete the document still holds a `color` child with the
highlighted text (the claim says exactly that child is removed) and the
`note` element — content that is not a colour entry — has been removed. -/
theorem delete_colour_removes_untagged_child_cex :
    action_delete sNote = .ok sNoteAfter ∧
    ((descList sNote.file.childNodes).filter (Node.tagIs "note")).length = 1 ∧
    ((descList sNoteAfter.file.childNodes).filter (Node.tagIs "note")).length = 0 ∧
    ((descList sNoteAfter.file.childNodes).filter
      (fun c => Node.tagIs "color" c && (Node.text c == some "#AABBCC"))).length
      = 1 :=
  ⟨rfl, rfl, rfl, rfl⟩

/-- C7 (amended): with a palette and a colour highlighted, the delete action
removes exactly the first child element — of whatever tag — of the found
palette whose stored text equals the highlighted value under exact string
equality (when every child of the palette is a `color` element this is the
first matching colour entry); every other child of that palette, every other
palette and all unrelated document content are unchanged, the palette stays
highlighted, only the colour highlight is cleared, and the cache and colour
list are rebuilt from the rewritten file. -/
theorem delete_colour_removes_first_text_match (s : AppState) (N H rt : String)
    (ra pa pattrs : List (String × String)) (rtx ptx ptx2 : Option String)
    (L R A B X Y : List Node) (c0 : Node)
    (hfile : s.file = Node.elem rt ra rtx
      (L ++ Node.elem "preferences" pa ptx
        (A ++ Node.elem "color-palette" pattrs ptx2 (X ++ c0 :: Y) :: B) :: R))
    (hhl : s.highlightedPalette = some N)
    (hhc : s.highlightedColour = some H)
    (hLpref : ∀ n ∈ L, Node.tagIs "preferences" n = false)
    (hL : findNodeList (palNamed N) L = none)
    (hA : findNodeList (palNamed N) A = none)
    (hname : (pattrs.find? (fun q => q.1 == "name")).map Prod.snd = some N)
    (hc0 : c0.text = some H)
    (hX : ∀ x ∈ X, (x.text == some H) = false) :
    action_delete s = .ok { s with
      file := Node.elem rt ra rtx
        (L ++ Node.elem "preferences" pa ptx
          (A ++ Node.elem "color-palette" pattrs ptx2 (X ++ Y) :: B) :: R)
      existing_palettes := get_existing_palettes (Node.elem rt ra rtx
        (L ++ Node.elem "preferences" pa ptx
          (A ++ Node.elem "color-palette" pattrs ptx2 (X ++ Y) :: B) :: R))
      highlightedColour := none
      colourList := ((X ++ Y).filter (Node.tagIs "color")).map Node.text } := by
  have hP : palNamed N
      (Node.elem "color-palette" pattrs ptx2 (X ++ c0 :: Y)) = true := by
    simp [palNamed, Node.tagIs, Node.getAttr, hname]
  have hP' : palNamed N (Node.elem "color-palette" pattrs ptx2 (X ++ Y)) = true := by
    simp [palNamed, Node.tagIs, Node.getAttr, hname]
  have hfindpref : (L ++ Node.elem "preferences" pa ptx
      (A ++ Node.elem "color-palette" pattrs ptx2 (X ++ c0 :: Y) :: B) :: R).find?
        (Node.tagIs "preferences") =
      some (Node.elem "preferences" pa ptx
        (A ++ Node.elem "color-palette" pattrs ptx2 (X ++ c0 :: Y) :: B)) :=
    find_tagged_append R _ hLpref (by simp [Node.tagIs])
  have hfindcp : findNodeList (palNamed N)
      (A ++ Node.elem "color-palette" pattrs ptx2 (X ++ c0 :: Y) :: B) =
      some (Node.elem "color-palette" pattrs ptx2 (X ++ c0 :: Y)) := by
    rw [findNodeList_append_none hA]
    exact findNodeList_cons_found B hP
  have hany : ((X ++ c0 :: Y).any fun c => c.text == some H) = true := by
    simp [List.any_append, hc0]
  have hrm : removeFirstWithText H (X ++ c0 :: Y) = X ++ Y :=
    removeFirstWithText_append Y c0 hX hc0
  have hupdp : updateFirstInList (palNamed N) (removeColourFromPalette H)
      (A ++ Node.elem "color-palette" pattrs ptx2 (X ++ c0 :: Y) :: B) =
      some (A ++ Node.elem "color-palette" pattrs ptx2 (X ++ Y) :: B) := by
    rw [updateFirstInList_found B
      (Node.elem "color-palette" pattrs ptx2 (X ++ c0 :: Y)) hA hP]
    simp [removeColourFromPalette, hrm]
  have hrep : replaceFirstChildTagged "preferences"
      (fun pr => (updateFirstDesc (palNamed N) (removeColourFromPalette H) pr).getD pr)
      (L ++ Node.elem "preferences" pa ptx
        (A ++ Node.elem "color-palette" pattrs ptx2 (X ++ c0 :: Y) :: B) :: R) =
      L ++ Node.elem "preferences" pa ptx
        (A ++ Node.elem "color-palette" pattrs ptx2 (X ++ Y) :: B) :: R := by
    rw [replaceFirstChildTagged_append _ hLpref]
    simp [replaceFirstChildTagged, Node.tagIs, updateFirstDesc, hupdp]
  have hlook2 : ((get_existing_palettes (Node.elem rt ra rtx
      (L ++ Node.elem "preferences" pa ptx
        (A ++ Node.elem "color-palette" pattrs ptx2 (X ++ Y) :: B) :: R))).filter
      (fun q => q.name == some N)).head? =
      some (paletteOfElement
        (Node.elem "color-palette" pattrs ptx2 (X ++ Y))) :=
    cache_head_of_shape N hL hA rfl hP'
  have hcolours : (paletteOfElement
      (Node.elem "color-palette" pattrs ptx2 (X ++ Y))).colours =
      ((X ++ Y).filter (Node.tagIs "color")).map Node.text := by
    simp [paletteOfElement, Node.childNodes]
  simp only [action_delete, hfile, hhl, Node.childNodes, hfindpref, hfindcp, hhc,
    hany, if_true, hrep, hlook2, hcolours]

/-- State over `fileBrand` with both the Brand palette and its colour
`#112233` highlighted. -/
def sBrandColour : AppState :=
  { sBrand with highlightedColour := some "#112233" }

/-- The Brand document after its only colour has been deleted. -/
def fileBrandEmptied : Node :=
  Node.elem "workbook" [] none
    [Node.elem "preferences" [] none
      [Node.elem "color-palette" [("name", "Brand"), ("type", "regular")] none [],
       otherPalette]]

/-- Witness for `delete_colour_removes_first_text_match`: deleting the
highlighted `#112233` from Brand empties that palette, keeps Brand
highlighted and clears the colour highlight. -/
theorem delete_colour_removes_first_text_match_witness :
    action_delete sBrandColour = .ok { sBrandColour with
      file := fileBrandEmptied
      existing_palettes := get_existing_palettes fileBrandEmptied
      highlightedColour := none
      colourList := [] } :=
  delete_colour_removes_first_text_match sBrandColour "Brand" "#112233" "workbook"
    [] [] [("name", "Brand"), ("type", "regular")] none none none
    [] [] [] [otherPalette] [] [] (colorElement "#112233")
    rfl rfl rfl (by simp) rfl rfl rfl rfl (by simp)

/-
Claim C8.
-/

/-- C8: with a palette highlighted and no colour highlighted, the delete
action removes exactly the highlighted palette element — with all its colour
children — from the children of the preferences element, leaves every other
palette and all unrelated document content unchanged, clears both the palette
and the colour highlight, empties the colour list pane, and rebuilds the
cache from the rewritten file.  The hypotheses pin the highlighted palette as
the first `color-palette` named `N` below `preferences` and as one of its
direct children, which is the situation the palette list produces. -/
theorem delete_palette_removes_exactly_highlighted (s : AppState) (N rt : String)
    (ra pa : List (String × String)) (rtx ptx : Option String)
    (L R A B : List Node) (P : Node)
    (hfile : s.file = Node.elem rt ra rtx
      (L ++ Node.elem "preferences" pa ptx (A ++ P :: B) :: R))
    (hhl : s.highlightedPalette = some N)
    (hhc : s.highlightedColour = none)
    (hLpref : ∀ n ∈ L, Node.tagIs "preferences" n = false)
    (hA : findNodeList (palNamed N) A = none)
    (hP : palNamed N P = true) :
    action_delete s = .ok
      { file := Node.elem rt ra rtx
          (L ++ Node.elem "preferences" pa ptx (A ++ B) :: R)
        existing_palettes := get_existing_palettes (Node.elem rt ra rtx
          (L ++ Node.elem "preferences" pa ptx (A ++ B) :: R))
        highlightedPalette := none
        highlightedColour := none
        colourList := [] } := by
  have hfindpref : (L ++ Node.elem "preferences" pa ptx (A ++ P :: B) :: R).find?
      (Node.tagIs "preferences") =
      some (Node.elem "preferences" pa ptx (A ++ P :: B)) :=
    find_tagged_append R _ hLpref (by simp [Node.tagIs])
  have hrm : removeDirectFirstMatch (palNamed N) (A ++ P :: B) = some (A ++ B) :=
    removeDirectFirstMatch_found B P hA hP
  have hrep : replaceFirstChildTagged "preferences" (Node.withChildren (A ++ B))
      (L ++ Node.elem "preferences" pa ptx (A ++ P :: B) :: R) =
      L ++ Node.elem "preferences" pa ptx (A ++ B) :: R := by
    rw [replaceFirstChildTagged_append _ hLpref]
    simp [replaceFirstChildTagged, Node.tagIs, Node.withChildren]
  simp only [action_delete, hfile, hhl, hhc, Node.childNodes, hfindpref, hrm, hrep]

/-- Witness for `delete_palette_removes_exactly_highlighted`: deleting the
highlighted Brand palette from the Brand document leaves only Other and
clears both highlights. -/
theorem delete_palette_removes_exactly_highlighted_witness :
    action_delete sBrand = .ok sAfterBrandDeleted :=
  delete_palette_removes_exactly_highlighted sBrand "Brand" "workbook"
    [] [] none none [] [] [] [otherPalette] brandPalette
    rfl rfl rfl (by simp) rfl rfl
